import Mathlib

/-!
# Benkyoo landing page: release resolution

A shallow embedding of the download-resolution logic of `src/App.jsx`
(`FALLBACK_LINKS`, `detectOS`, `isAppleSilicon`, `useReleases` and the body of
`SmartDownloadArea`), followed by theorems about it.

Modelling conventions.

* A JavaScript value that is either a string or absent (`undefined`/`null`) is an
  `Option String`; manifest slots hold URL strings or are absent.  Such a value
  is truthy exactly when it is a non-empty string.
* `a || b` is `jsOr a b`; `a || "lit"` (whose result is always a string) is
  `jsOrStr a "lit"`.
* `obj?.field` and `(obj || {}).field` on an optional group are `Option.bind`.
* `links` reads the global `FALLBACK_LINKS` in the source; here the fallback is
  an explicit argument, and `FALLBACK_LINKS` is the constant of the source.
-/

namespace Benkyoo

/-! ## Data model -/

/-- Windows asset group: `zip`, `portable`, `installer`, `sha256`. -/
structure WindowsAssets where
  zip : Option String
  portable : Option String
  installer : Option String
  sha256 : Option String
  deriving DecidableEq, Repr

/-- Mac asset group: `arm64`, `x64`, `sha256`. -/
structure MacAssets where
  arm64 : Option String
  x64 : Option String
  sha256 : Option String
  deriving DecidableEq, Repr

/-- Linux asset group: `appImage`, `sha256`. -/
structure LinuxAssets where
  appImage : Option String
  sha256 : Option String
  deriving DecidableEq, Repr

/-- The shape of `releases.json` and of `FALLBACK_LINKS`; every field may be absent. -/
structure Manifest where
  version : Option String
  releaseNotesUrl : Option String
  windows : Option WindowsAssets
  mac : Option MacAssets
  linux : Option LinuxAssets
  deriving DecidableEq, Repr

/-- The object built by the `links` memo of `SmartDownloadArea`. -/
structure Links where
  windows : WindowsAssets
  mac : MacAssets
  linux : LinuxAssets
  version : Option String
  notes : Option String
  deriving DecidableEq, Repr

/-- The four results of `detectOS`. -/
inductive OS where
  | windows
  | mac
  | linux
  | other
  deriving DecidableEq, Repr

/-- The manifest fetch as a tagged variant: still loading, loaded, or failed. -/
inductive ManifestResult where
  | loading
  | loaded (m : Manifest)
  | failed (reason : String)
  deriving DecidableEq, Repr

/-- The state object of `useReleases`: `loading`, `data`, `error`.  An `error`
that is present is the rejection value of the fetch chain (an `Error` object),
recorded here by its message. -/
structure ReleasesState where
  loading : Bool
  data : Option Manifest
  error : Option String
  deriving DecidableEq, Repr

/-! ## JavaScript helpers -/

/-- Truthiness of a string-or-absent value: a non-empty string. -/
def truthy : Option String → Bool
  | some s => s != ""
  | none => false

/-- The operator `a || b` on string-or-absent values. -/
def jsOr (a b : Option String) : Option String :=
  if truthy a then a else b

/-- The operator `a || "lit"`, whose result is always a string. -/
def jsOrStr (a : Option String) (lit : String) : String :=
  match a with
  | some s => if s != "" then s else lit
  | none => lit

/-! ## The source -/

/-- The constant `FALLBACK_LINKS` (App.jsx lines 4-11): only a windows group. -/
def FALLBACK_LINKS : Manifest :=
  { version := none
    releaseNotesUrl := none
    windows := some
      { zip := some "/downloads/Benkyoo-0.1.5-Setup.zip"
        portable := some "/downloads/Benkyoo-0.1.5-Portable.exe"
        installer := some "/downloads/Benkyoo-0.1.5-Setup.exe"
        sha256 := none }
    mac := none
    linux := none }

/-- The three states `useReleases` can be in (App.jsx lines 47, 55, 56). -/
def useReleases : ManifestResult → ReleasesState
  | .loading => { loading := true, data := none, error := none }
  | .loaded m => { loading := false, data := some m, error := none }
  | .failed reason => { loading := false, data := none, error := some reason }

/-- The `links` memo (App.jsx lines 74-91), with the fallback passed explicitly.
`d = data || {}`, `win = d.windows || {}` and so on become `Option.bind`. -/
def links (fb : Manifest) (data : Option Manifest) : Links :=
  let win := data.bind (·.windows)
  let mac := data.bind (·.mac)
  let lin := data.bind (·.linux)
  { windows :=
      { zip := jsOr (win.bind (·.zip)) (fb.windows.bind (·.zip))
        portable := jsOr (win.bind (·.portable)) (fb.windows.bind (·.portable))
        installer := jsOr (win.bind (·.installer)) (fb.windows.bind (·.installer))
        sha256 := win.bind (·.sha256) }
    mac :=
      { arm64 := mac.bind (·.arm64)
        x64 := mac.bind (·.x64)
        sha256 := mac.bind (·.sha256) }
    linux :=
      { appImage := lin.bind (·.appImage)
        sha256 := lin.bind (·.sha256) }
    version := data.bind (·.version)
    notes := data.bind (·.releaseNotesUrl) }

/-- The variable `primaryHref` after the `if` chain (App.jsx lines 94-109). -/
def primaryHref (os : OS) (apple : Bool) (l : Links) : String :=
  match os with
  | .windows => jsOrStr (jsOr (jsOr l.windows.zip l.windows.installer) l.windows.portable) ""
  | .mac =>
    let macHref := if apple then l.mac.arm64 else l.mac.x64
    jsOrStr (jsOr macHref l.windows.zip) ""
  | .linux => jsOrStr (jsOr l.linux.appImage l.windows.zip) ""
  | .other => jsOrStr l.windows.zip ""

/-- The variable `primaryLabel` after the `if` chain (App.jsx lines 95-109). -/
def primaryLabel (os : OS) (apple : Bool) : String :=
  match os with
  | .windows => "Download for Windows (.zip)"
  | .mac => if apple then "Download for macOS (Apple Silicon)" else "Download for macOS (Intel)"
  | .linux => "Download for Linux (AppImage)"
  | .other => "Download (Windows .zip)"

/-- The text of the `<span>` inside the primary call-to-action (App.jsx line
159): a literal, whatever `os`, `apple` and the manifest are. -/
def renderedPrimaryLabel (_os : OS) (_apple : Bool) (_l : Links) : String :=
  "Download for Windows (.zip)"

/-- The constant `safeHref` (App.jsx line 112). -/
def safeHref (fb : Manifest) (os : OS) (apple : Bool) (l : Links) : String :=
  jsOrStr (jsOr (some (primaryHref os apple l)) (fb.windows.bind (·.zip))) "#"

/-- The constant `disabled` (App.jsx line 113). -/
def disabled (fb : Manifest) (os : OS) (apple : Bool) (l : Links) : Bool :=
  safeHref fb os apple l == "#"

/-- Whether the notice "Using fallback links (releases.json unavailable)." is
rendered (App.jsx line 182): `error && <span>…</span>`, with `error` either
`null` or an error object. -/
def usedFallback (st : ReleasesState) : Bool :=
  st.error.isSome

/-- The whole resolution for one render: fetch state, merge, selection. -/
def resolvePrimary (fb : Manifest) (os : OS) (apple : Bool) (r : ManifestResult) : String :=
  primaryHref os apple (links fb (useReleases r).data)

/-! ## Platform detection -/

/-- The ambient `navigator` fields read by the detector; each may be absent.
`userAgentDataPlatform` is `navigator.userAgentData?.platform`. -/
structure Navigator where
  userAgentDataPlatform : Option String
  platform : Option String
  userAgent : Option String
  maxTouchPoints : Option Nat
  deriving DecidableEq, Repr

/-- Whether `pat` occurs in `s` as a contiguous block, scanning start positions
from the left. -/
def includesChars (pat : List Char) : List Char → Bool
  | [] => pat.isEmpty
  | c :: cs => pat.isPrefixOf (c :: cs) || includesChars pat cs

/-- The method `s.includes(pat)`; also `/pat/.test(s)` for a literal `pat`. -/
def includes (s pat : String) : Bool :=
  includesChars pat.toList s.toList

/-- The method `s.toLowerCase()` on the letters `A`-`Z`.  Case mapping outside
ASCII is not modelled: every searched marker is ASCII, and the non-ASCII
characters whose lower-casing contains an ASCII letter (U+0130, giving `i`
followed by U+0307, and U+212A, giving `k`) cannot complete an occurrence of a
marker, since each marker has `n` right after its `i` and none has a `k`. -/
def toLowerCase (s : String) : String :=
  String.mk (s.toList.map Char.toLower)

/-- The `plat` constant of `detectOS` (App.jsx line 18). -/
def detectPlat (nav : Navigator) : String :=
  toLowerCase (jsOrStr (jsOr nav.userAgentDataPlatform nav.platform) "")

/-- The `ua` constant of `detectOS` (App.jsx line 19). -/
def detectUa (nav : Navigator) : String :=
  toLowerCase (jsOrStr nav.userAgent "")

/-- The function `detectOS` (App.jsx lines 16-24). -/
def detectOS (nav : Navigator) : OS :=
  let plat := detectPlat nav
  let ua := detectUa nav
  if includes plat "win" || includes ua "windows" then .windows
  else if includes plat "mac" || includes ua "mac os" || includes ua "macintosh" then .mac
  else if includes plat "linux" || includes ua "linux" then .linux
  else .other

/-- The function `isAppleSilicon` (App.jsx lines 26-29).  The test
`/arm64/i.test(ua)` ignores the case of ASCII letters only, so it is a search
for `arm64` in the ASCII-lower-cased string; `/Macintosh/.test(ua)` is a
case-sensitive search. -/
def isAppleSilicon (nav : Navigator) : Bool :=
  let ua := jsOrStr nav.userAgent ""
  includes (toLowerCase ua) "arm64" ||
    (includes ua "Macintosh" && decide (nav.maxTouchPoints.getD 0 > 0))

/-! ## Fields, and the merge rule as the specification words it -/

/-- The asset slots and metadata fields of a manifest. -/
inductive Field where
  | windowsZip
  | windowsInstaller
  | windowsPortable
  | windowsSha256
  | macArm64
  | macX64
  | macSha256
  | linuxAppImage
  | linuxSha256
  | version
  | releaseNotesUrl
  deriving DecidableEq, Repr

/-- Reading a field of a manifest: `m.windows?.zip`, ..., `m.version`. -/
def Manifest.get (m : Manifest) : Field → Option String
  | .windowsZip => m.windows.bind (·.zip)
  | .windowsInstaller => m.windows.bind (·.installer)
  | .windowsPortable => m.windows.bind (·.portable)
  | .windowsSha256 => m.windows.bind (·.sha256)
  | .macArm64 => m.mac.bind (·.arm64)
  | .macX64 => m.mac.bind (·.x64)
  | .macSha256 => m.mac.bind (·.sha256)
  | .linuxAppImage => m.linux.bind (·.appImage)
  | .linuxSha256 => m.linux.bind (·.sha256)
  | .version => m.version
  | .releaseNotesUrl => m.releaseNotesUrl

/-- Reading the same field of the merged object (`releaseNotesUrl` is stored
as `notes`). -/
def Links.get (l : Links) : Field → Option String
  | .windowsZip => l.windows.zip
  | .windowsInstaller => l.windows.installer
  | .windowsPortable => l.windows.portable
  | .windowsSha256 => l.windows.sha256
  | .macArm64 => l.mac.arm64
  | .macX64 => l.mac.x64
  | .macSha256 => l.mac.sha256
  | .linuxAppImage => l.linux.appImage
  | .linuxSha256 => l.linux.sha256
  | .version => l.version
  | .releaseNotesUrl => l.notes

/-- The remote value of a field: that of the manifest when loaded, absent
while loading or after a failure. -/
def remoteValue (r : ManifestResult) (f : Field) : Option String :=
  match r with
  | .loaded m => m.get f
  | _ => none

/-- The field-level merge rule in the words of the specification: the remote
value if the manifest is loaded and the value is non-empty, else the value of
the fallback. -/
def specMerge (fb : Manifest) (r : ManifestResult) (f : Field) : Option String :=
  match r with
  | .loaded m => if truthy (m.get f) then m.get f else fb.get f
  | _ => fb.get f

/-- The fields for which the `links` memo names a fallback expression. -/
def Field.hasFallback : Field → Bool
  | .windowsZip => true
  | .windowsInstaller => true
  | .windowsPortable => true
  | _ => false

/-! ## Detection signals as the specification words them -/

/-- The string `s` contains `pat`: `s = pre ++ pat ++ post` for some `pre`,
`post`. -/
def Contains (s pat : String) : Prop :=
  pat.toList <:+: s.toList

/-- The windows signal: the platform contains "win" or the user agent
contains "windows". -/
def windowsSignal (p u : String) : Prop :=
  Contains p "win" ∨ Contains u "windows"

/-- The mac-family signal: the platform contains "mac" or the user agent
contains "mac os" or "macintosh". -/
def macSignal (p u : String) : Prop :=
  Contains p "mac" ∨ Contains u "mac os" ∨ Contains u "macintosh"

/-- The linux signal: the platform or the user agent contains "linux". -/
def linuxSignal (p u : String) : Prop :=
  Contains p "linux" ∨ Contains u "linux"

/-- The user agent indicates the mac family: the user-agent part of the
mac-family signal, "mac os" or "macintosh" in the lower-cased string. -/
def macFamilyUa (u : String) : Bool :=
  includes (toLowerCase u) "mac os" || includes (toLowerCase u) "macintosh"

/-- The Apple-silicon hint in the words of the specification: the user agent
contains `arm64` in any letter case, or it indicates the mac family and the
touch-point count is non-zero. -/
def specAppleSilicon (nav : Navigator) : Bool :=
  includes (toLowerCase (jsOrStr nav.userAgent "")) "arm64" ||
    (macFamilyUa (jsOrStr nav.userAgent "") && decide (nav.maxTouchPoints.getD 0 ≠ 0))

/-- A value with the empty string read as absent. -/
def present (a : Option String) : Option String :=
  if truthy a then a else none

/-! ## Concrete inputs -/

/-- An iPhone: platform `iPhone`, a user agent with `like Mac OS X` and without
`Macintosh`, five touch points. -/
def iphoneNav : Navigator :=
  { userAgentDataPlatform := none
    platform := some "iPhone"
    userAgent := some "Mozilla/5.0 (iPhone; CPU iPhone OS 17_0 like Mac OS X)"
    maxTouchPoints := some 5 }


/-- The constant `FALLBACK_LINKS` with the edit that the comment on App.jsx
line 10 invites ("Add mac/linux later if you have them"): the windows group
as shipped, plus `mac: {arm64: "A"}`. -/
def FALLBACK_LINKS_withMac : Manifest :=
  { FALLBACK_LINKS with mac := some { arm64 := some "A", x64 := none, sha256 := none } }

/-- The manifest `{windows: {installer: "I"}}`. -/
def installerOnly : Manifest :=
  { version := none, releaseNotesUrl := none
    windows := some { zip := none, portable := none, installer := some "I", sha256 := none }
    mac := none, linux := none }

/-- The manifest `{mac: {x64: "X"}}`. -/
def macX64Only : Manifest :=
  { version := none, releaseNotesUrl := none, windows := none
    mac := some { arm64 := none, x64 := some "X", sha256 := none }
    linux := none }

/-- The manifest `{windows: {zip: "#"}}`. -/
def hashZip : Manifest :=
  { version := none, releaseNotesUrl := none
    windows := some { zip := some "#", portable := none, installer := none, sha256 := none }
    mac := none, linux := none }

/-- The manifest `{mac: {arm64: "#"}}`. -/
def hashArm64 : Manifest :=
  { version := none, releaseNotesUrl := none, windows := none
    mac := some { arm64 := some "#", x64 := none, sha256 := none }
    linux := none }

/-- The empty manifest. -/
def emptyManifest : Manifest :=
  { version := none, releaseNotesUrl := none, windows := none, mac := none, linux := none }

end Benkyoo

namespace Benkyoo

/-! ## Lemmas on the JavaScript helpers -/

theorem truthy_eq_true_iff (a : Option String) :
    truthy a = true ↔ ∃ s, a = some s ∧ s ≠ "" := by
  cases a with
  | none => simp [truthy]
  | some s => simp [truthy]

theorem truthy_eq_false_iff (a : Option String) :
    truthy a = false ↔ a = none ∨ a = some "" := by
  cases a with
  | none => simp [truthy]
  | some s => simp [truthy]

theorem jsOr_of_truthy {a : Option String} (b : Option String) (h : truthy a = true) :
    jsOr a b = a := by
  simp [jsOr, h]

theorem jsOr_of_not_truthy {a : Option String} (b : Option String) (h : truthy a = false) :
    jsOr a b = b := by
  simp [jsOr, h]

theorem truthy_jsOr (a b : Option String) :
    truthy (jsOr a b) = (truthy a || truthy b) := by
  unfold jsOr
  cases h : truthy a <;> simp [h]

theorem jsOrStr_eq (a : Option String) (lit : String) :
    jsOrStr a lit = if truthy a then a.getD "" else lit := by
  cases a with
  | none => simp [jsOrStr, truthy]
  | some s => by_cases h : s = "" <;> simp [jsOrStr, truthy, h]

theorem jsOrStr_of_truthy {a : Option String} (lit : String) (h : truthy a = true) :
    some (jsOrStr a lit) = a := by
  obtain ⟨s, rfl, hs⟩ := (truthy_eq_true_iff a).1 h
  simp [jsOrStr, hs]

theorem jsOrStr_empty_ne_empty_iff (a : Option String) :
    jsOrStr a "" = "" ↔ truthy a = false := by
  cases a with
  | none => simp [jsOrStr, truthy]
  | some s => by_cases h : s = "" <;> simp [jsOrStr, truthy, h]

theorem present_ite_truthy (a : Option String) :
    present (if truthy a = true then a else none) = present a := by
  unfold present
  cases h : truthy a
  · simp [h]
  · simp [h]

theorem primaryHref_windows_of_zip (apple : Bool) (l : Links)
    (h : truthy l.windows.zip = true) :
    some (primaryHref .windows apple l) = l.windows.zip := by
  have h1 : jsOr l.windows.zip l.windows.installer = l.windows.zip := jsOr_of_truthy _ h
  have h2 : jsOr l.windows.zip l.windows.portable = l.windows.zip := jsOr_of_truthy _ h
  simp only [primaryHref, h1, h2]
  exact jsOrStr_of_truthy _ h

theorem links_zip_truthy (fb : Manifest) (d : Option Manifest)
    (h : truthy (fb.windows.bind (·.zip)) = true) :
    truthy (links fb d).windows.zip = true := by
  simp [links, truthy_jsOr, h]

theorem primaryHref_ne_empty (os : OS) (apple : Bool) (l : Links)
    (h : truthy l.windows.zip = true) : primaryHref os apple l ≠ "" := by
  intro hp
  cases os <;>
    simp [primaryHref, jsOrStr_empty_ne_empty_iff, truthy_jsOr, h] at hp

theorem safeHref_eq_primaryHref (fb : Manifest) (os : OS) (apple : Bool) (l : Links)
    (h : primaryHref os apple l ≠ "") :
    safeHref fb os apple l = primaryHref os apple l := by
  simp [safeHref, jsOr, truthy, h, jsOrStr]

theorem jsOr_eq_some (a b : Option String) (s : String) (h : jsOr a b = some s) :
    a = some s ∨ b = some s := by
  unfold jsOr at h
  split at h
  · exact Or.inl h
  · exact Or.inr h

theorem jsOrStr_empty_eq (a : Option String) (s : String) (hs : s ≠ "")
    (h : jsOrStr a "" = s) : a = some s := by
  cases a with
  | none => exact absurd h.symm hs
  | some t =>
    by_cases ht : t = ""
    · subst ht
      exact absurd h.symm hs
    · simp [jsOrStr, ht] at h
      rw [h]

theorem links_linux_appImage (fb : Manifest) (r : ManifestResult) :
    (links fb (useReleases r).data).linux.appImage = remoteValue r .linuxAppImage := by
  cases r <;> simp [links, useReleases, remoteValue, Manifest.get]

theorem links_mac_arm64 (fb : Manifest) (r : ManifestResult) :
    (links fb (useReleases r).data).mac.arm64 = remoteValue r .macArm64 := by
  cases r <;> simp [links, useReleases, remoteValue, Manifest.get]

theorem links_mac_x64 (fb : Manifest) (r : ManifestResult) :
    (links fb (useReleases r).data).mac.x64 = remoteValue r .macX64 := by
  cases r <;> simp [links, useReleases, remoteValue, Manifest.get]

theorem links_windows_zip (fb : Manifest) (r : ManifestResult) :
    (links fb (useReleases r).data).windows.zip =
      jsOr (remoteValue r .windowsZip) (fb.windows.bind (·.zip)) := by
  cases r <;> simp [links, useReleases, remoteValue, Manifest.get]

end Benkyoo

namespace Benkyoo

/-! ## The merge -/

/-- For every fallback, manifest result and field, the merged value follows
the specification's rule (remote if loaded and non-empty, else fallback) on the
windows `zip`, `installer` and `portable` slots, and is the remote value alone
(absent unless loaded) on every other field. -/
theorem links_merge_by_field (fb : Manifest) (r : ManifestResult) (f : Field) :
    (links fb (useReleases r).data).get f =
      if f.hasFallback then specMerge fb r f else remoteValue r f := by
  cases r <;> cases f <;>
    simp [links, useReleases, Links.get, Manifest.get, Field.hasFallback, specMerge,
      remoteValue, jsOr, truthy]

/-- C1 (the code at the failing input): once `FALLBACK_LINKS` carries the mac
entry `arm64: "A"` and the fetch has failed, the rule of the claim gives `"A"`
for `mac.arm64`, and the `links` memo leaves the slot absent, while on the
windows zip of the same fallback it does apply the rule.  With the constant as
shipped the defect is latent: for every manifest result and field the merged
value agrees with the rule, the empty string read as absent. -/
theorem links_drops_added_mac_fallback :
    specMerge FALLBACK_LINKS_withMac (.failed "timeout") .macArm64 = some "A" ∧
    (links FALLBACK_LINKS_withMac (useReleases (.failed "timeout")).data).get .macArm64 = none ∧
    (links FALLBACK_LINKS_withMac (useReleases (.failed "timeout")).data).get .windowsZip =
      specMerge FALLBACK_LINKS_withMac (.failed "timeout") .windowsZip ∧
    (∀ (r : ManifestResult) (f : Field),
      present ((links FALLBACK_LINKS (useReleases r).data).get f) =
        present (specMerge FALLBACK_LINKS r f)) := by
  refine ⟨by decide, by decide, by decide, ?_⟩
  intro r f
  rw [links_merge_by_field]
  cases r <;> cases f <;>
    simp [Field.hasFallback, specMerge, remoteValue, Manifest.get, FALLBACK_LINKS,
      present_ite_truthy]

/-! ## Primary selection -/

/-- C2: on windows the primary URL is the effective `zip` if non-empty, else
the effective `installer` if non-empty, else the effective `portable` if
non-empty, else empty; it is empty exactly when all three are empty; and it
does not change when the mac, linux and metadata parts of the merged object
change. -/
theorem primaryHref_windows_chain (apple : Bool) (l : Links) :
    primaryHref .windows apple l =
      (if truthy l.windows.zip then l.windows.zip.getD ""
       else if truthy l.windows.installer then l.windows.installer.getD ""
       else if truthy l.windows.portable then l.windows.portable.getD ""
       else "") ∧
    (primaryHref .windows apple l = "" ↔
      truthy l.windows.zip = false ∧ truthy l.windows.installer = false ∧
        truthy l.windows.portable = false) ∧
    (∀ (mac : MacAssets) (lin : LinuxAssets) (v n : Option String),
      primaryHref .windows apple { l with mac := mac, linux := lin, version := v, notes := n } =
        primaryHref .windows apple l) := by
  refine ⟨?_, ?_, ?_⟩
  · simp only [primaryHref, jsOrStr_eq, truthy_jsOr]
    cases hz : truthy l.windows.zip <;> cases hi : truthy l.windows.installer <;>
      cases hp : truthy l.windows.portable <;> simp [jsOr, hz, hi, hp]
  · simp only [primaryHref, jsOrStr_empty_ne_empty_iff, truthy_jsOr]
    cases hz : truthy l.windows.zip <;> cases hi : truthy l.windows.installer <;>
      cases hp : truthy l.windows.portable <;> simp
  · intro mac lin v n
    rfl

/-- C3 (as stated, refuted): on windows, the manifest `{windows: {installer:
"I"}}` against the compiled `FALLBACK_LINKS` resolves to the fallback zip, not
to the remote installer `"I"`. -/
theorem remote_installer_only_counterexample :
    resolvePrimary FALLBACK_LINKS .windows false (.loaded installerOnly) =
      "/downloads/Benkyoo-0.1.5-Setup.zip" ∧
    resolvePrimary FALLBACK_LINKS .windows false (.loaded installerOnly) ≠ "I" ∧
    safeHref FALLBACK_LINKS .windows false
      (links FALLBACK_LINKS (useReleases (.loaded installerOnly)).data) ≠ "I" := by
  decide

/-- C3 (amended): on windows, for every loaded manifest without a windows zip
that supplies a non-empty installer `I`, and every fallback whose windows zip
is a non-empty `fz`, the primary URL (and `safeHref`) is the fallback zip `fz`;
the remote installer `I` is the effective installer slot, which the selection
reaches only after the zip. -/
theorem windows_primary_is_fallback_zip (fb m : Manifest) (apple : Bool) (fz I : String)
    (hfz : fb.get .windowsZip = some fz) (hne : fz ≠ "")
    (hz : truthy (m.get .windowsZip) = false)
    (hI : m.get .windowsInstaller = some I) (hIne : I ≠ "") :
    resolvePrimary fb .windows apple (.loaded m) = fz ∧
    safeHref fb .windows apple (links fb (useReleases (.loaded m)).data) = fz ∧
    (links fb (useReleases (.loaded m)).data).windows.installer = some I := by
  simp only [Manifest.get] at hfz hz hI
  have hzip : (links fb (some m)).windows.zip = some fz := by
    simp [links, jsOr_of_not_truthy _ hz, hfz]
  have hp : primaryHref .windows apple (links fb (some m)) = fz := by
    have := primaryHref_windows_of_zip apple (links fb (some m))
      (by rw [hzip]; simp [truthy, hne])
    rw [hzip] at this
    exact Option.some.inj this
  refine ⟨?_, ?_, ?_⟩
  · simpa [resolvePrimary, useReleases] using hp
  · simp [safeHref, useReleases, hp, jsOr, truthy, hne, jsOrStr]
  · have hIt : truthy (m.windows.bind (·.installer)) = true := by
      rw [hI]; simp [truthy, hIne]
    have := jsOr_of_truthy (fb.windows.bind (·.installer)) hIt
    simpa [links, useReleases, hI] using this

/-- Witness for C3 (amended): the manifest `{windows: {installer: "I"}}`
against the compiled `FALLBACK_LINKS`. -/
theorem windows_primary_is_fallback_zip_witness :
    resolvePrimary FALLBACK_LINKS .windows false (.loaded installerOnly) =
        "/downloads/Benkyoo-0.1.5-Setup.zip" ∧
    safeHref FALLBACK_LINKS .windows false
        (links FALLBACK_LINKS (useReleases (.loaded installerOnly)).data) =
        "/downloads/Benkyoo-0.1.5-Setup.zip" ∧
    (links FALLBACK_LINKS (useReleases (.loaded installerOnly)).data).windows.installer =
        some "I" :=
  windows_primary_is_fallback_zip FALLBACK_LINKS installerOnly false
    "/downloads/Benkyoo-0.1.5-Setup.zip" "I" (by decide) (by decide) (by decide) (by decide)
    (by decide)

/-- On mac with the Apple-silicon hint, for every fallback and every loaded
manifest without a `mac.arm64`, the primary URL is the effective windows zip
(remote if non-empty, else the fallback's), or empty when that is empty; the
mac group of the fallback is not read. -/
theorem mac_without_arm64_uses_windows_zip (fb m : Manifest)
    (h : truthy (m.get .macArm64) = false) :
    resolvePrimary fb .mac true (.loaded m) =
      jsOrStr (links fb (useReleases (.loaded m)).data).windows.zip "" ∧
    (links fb (useReleases (.loaded m)).data).windows.zip =
      specMerge fb (.loaded m) .windowsZip ∧
    (∀ mac : Option MacAssets,
      resolvePrimary { fb with mac := mac } .mac true (.loaded m) =
        resolvePrimary fb .mac true (.loaded m)) := by
  simp only [Manifest.get] at h
  refine ⟨?_, ?_, ?_⟩
  · simp [resolvePrimary, useReleases, primaryHref, links, jsOr, h]
  · simp [links, useReleases, specMerge, Manifest.get, jsOr]
  · intro mac
    rfl

/-- C4 (the code at the failing input): on mac with the Apple-silicon hint,
with `FALLBACK_LINKS` carrying the mac entry `arm64: "A"` and the loaded
manifest `{mac: {x64: "X"}}`, the primary URL and `safeHref` are the windows
zip of the fallback, not `"A"`: the same URL as with the constant as shipped. -/
theorem mac_primary_skips_added_fallback_arm64 :
    FALLBACK_LINKS_withMac.get .macArm64 = some "A" ∧
    macX64Only.get .macArm64 = none ∧
    resolvePrimary FALLBACK_LINKS_withMac .mac true (.loaded macX64Only) =
      "/downloads/Benkyoo-0.1.5-Setup.zip" ∧
    safeHref FALLBACK_LINKS_withMac .mac true
      (links FALLBACK_LINKS_withMac (useReleases (.loaded macX64Only)).data) =
      "/downloads/Benkyoo-0.1.5-Setup.zip" ∧
    resolvePrimary FALLBACK_LINKS .mac true (.loaded macX64Only) =
      "/downloads/Benkyoo-0.1.5-Setup.zip" := by
  decide

end Benkyoo

namespace Benkyoo

/-- C5 (as stated, refuted): on linux, with the compiled `FALLBACK_LINKS` and
the loaded manifest `{windows: {zip: "#"}}`, neither side has a
`linux.appImage`, the primary URL is the effective windows zip `"#"`, and
`disabled` is true. -/
theorem linux_disabled_counterexample :
    hashZip.get .linuxAppImage = none ∧
    FALLBACK_LINKS.get .linuxAppImage = none ∧
    resolvePrimary FALLBACK_LINKS .linux false (.loaded hashZip) = "#" ∧
    (links FALLBACK_LINKS (useReleases (.loaded hashZip)).data).windows.zip = some "#" ∧
    disabled FALLBACK_LINKS .linux false
      (links FALLBACK_LINKS (useReleases (.loaded hashZip)).data) = true := by
  decide

/-- C5 (amended): on linux, for every fallback with a non-empty windows zip
(such as the compiled one) and every manifest result whose manifest has no
`linux.appImage`, the primary URL is the effective windows zip, and `disabled`
is true exactly when that zip is the literal `"#"`, false otherwise. -/
theorem linux_without_appImage_uses_windows_zip (fb : Manifest) (r : ManifestResult)
    (apple : Bool) (hfb : truthy (fb.get .windowsZip) = true)
    (hr : truthy (remoteValue r .linuxAppImage) = false) :
    some (resolvePrimary fb .linux apple r) = (links fb (useReleases r).data).windows.zip ∧
    (links fb (useReleases r).data).windows.zip = specMerge fb r .windowsZip ∧
    (disabled fb .linux apple (links fb (useReleases r).data) = true ↔
      (links fb (useReleases r).data).windows.zip = some "#") := by
  have hz : truthy (links fb (useReleases r).data).windows.zip = true :=
    links_zip_truthy fb _ hfb
  have happ : truthy (links fb (useReleases r).data).linux.appImage = false := by
    rw [links_linux_appImage]; exact hr
  have hp : some (resolvePrimary fb .linux apple r) =
      (links fb (useReleases r).data).windows.zip := by
    simp only [resolvePrimary, primaryHref, jsOr_of_not_truthy _ happ]
    exact jsOrStr_of_truthy _ hz
  have hs : safeHref fb .linux apple (links fb (useReleases r).data) =
      resolvePrimary fb .linux apple r :=
    safeHref_eq_primaryHref fb .linux apple _ (primaryHref_ne_empty .linux apple _ hz)
  refine ⟨hp, ?_, ?_⟩
  · cases r <;> simp [links, useReleases, specMerge, Manifest.get, jsOr, truthy]
  · rw [← hp]
    simp [disabled, hs]

/-- Witness for C5 (amended): the compiled `FALLBACK_LINKS` after a failed
fetch. -/
theorem linux_without_appImage_uses_windows_zip_witness :
    some (resolvePrimary FALLBACK_LINKS .linux false (.failed "timeout")) =
      some "/downloads/Benkyoo-0.1.5-Setup.zip" ∧
    disabled FALLBACK_LINKS .linux false
      (links FALLBACK_LINKS (useReleases (.failed "timeout")).data) = false := by
  have h := linux_without_appImage_uses_windows_zip FALLBACK_LINKS (.failed "timeout") false
    (by decide) (by decide)
  refine ⟨h.1.trans (by decide), ?_⟩
  rw [Bool.eq_false_iff]
  intro hd
  exact absurd (h.2.2.1 hd) (by decide)

/-! ## The fallback notice -/

/-- C8 (as stated, refuted): while the manifest is loading the flag is false;
and for the loaded empty manifest on windows the primary URL is the fallback
zip (no remote zip exists) while the flag is false. -/
theorem usedFallback_counterexample :
    usedFallback (useReleases .loading) = false ∧
    usedFallback (useReleases (.loaded emptyManifest)) = false ∧
    remoteValue (.loaded emptyManifest) .windowsZip = none ∧
    some (resolvePrimary FALLBACK_LINKS .windows false (.loaded emptyManifest)) =
      FALLBACK_LINKS.get .windowsZip := by
  decide

/-- C8 (amended): the flag is true exactly when the manifest result is a
failure; it is false while loading and for every loaded manifest. -/
theorem usedFallback_iff_failed (r : ManifestResult) :
    usedFallback (useReleases r) = true ↔ ∃ reason, r = .failed reason := by
  cases r <;> simp [usedFallback, useReleases]

/-! ## The label -/

/-- C9 (the code at the failing inputs): on mac with the Apple-silicon hint,
on linux and on other, the computed `primaryLabel` is the platform's label,
while the text rendered in the primary button is "Download for Windows (.zip)". -/
theorem rendered_label_is_windows_literal :
    primaryLabel .mac true = "Download for macOS (Apple Silicon)" ∧
    renderedPrimaryLabel .mac true (links FALLBACK_LINKS none) = "Download for Windows (.zip)" ∧
    primaryLabel .mac false = "Download for macOS (Intel)" ∧
    renderedPrimaryLabel .mac false (links FALLBACK_LINKS none) = "Download for Windows (.zip)" ∧
    primaryLabel .linux false = "Download for Linux (AppImage)" ∧
    renderedPrimaryLabel .linux false (links FALLBACK_LINKS none) = "Download for Windows (.zip)" ∧
    primaryLabel .other false = "Download (Windows .zip)" ∧
    renderedPrimaryLabel .other false (links FALLBACK_LINKS none) = "Download for Windows (.zip)" := by
  decide

/-! ## The compiled fallback -/

/-- C10 (as stated, refuted): with the compiled `FALLBACK_LINKS`, on mac with
the Apple-silicon hint, the loaded manifest `{mac: {arm64: "#"}}` gives
`safeHref = "#"` and `disabled = true`. -/
theorem compiled_fallback_disabled_counterexample :
    safeHref FALLBACK_LINKS .mac true
      (links FALLBACK_LINKS (useReleases (.loaded hashArm64)).data) = "#" ∧
    disabled FALLBACK_LINKS .mac true
      (links FALLBACK_LINKS (useReleases (.loaded hashArm64)).data) = true := by
  decide

/-- C10 (amended): with the compiled `FALLBACK_LINKS`, for every OS, hint and
manifest result, the effective windows zip is non-empty, the primary URL is
non-empty, `safeHref` is the primary URL, and `disabled` is true exactly when
the primary URL is the literal `"#"`; when none of the remote `windows.zip`,
`mac.arm64`, `mac.x64`, `linux.appImage` is `"#"` (in particular while loading
and after a failure), `disabled` is false. -/
theorem compiled_fallback_invariant (os : OS) (apple : Bool) (r : ManifestResult) :
    truthy (links FALLBACK_LINKS (useReleases r).data).windows.zip = true ∧
    resolvePrimary FALLBACK_LINKS os apple r ≠ "" ∧
    safeHref FALLBACK_LINKS os apple (links FALLBACK_LINKS (useReleases r).data) =
      resolvePrimary FALLBACK_LINKS os apple r ∧
    (disabled FALLBACK_LINKS os apple (links FALLBACK_LINKS (useReleases r).data) = true ↔
      resolvePrimary FALLBACK_LINKS os apple r = "#") ∧
    (remoteValue r .windowsZip ≠ some "#" ∧ remoteValue r .macArm64 ≠ some "#" ∧
        remoteValue r .macX64 ≠ some "#" ∧ remoteValue r .linuxAppImage ≠ some "#" →
      disabled FALLBACK_LINKS os apple (links FALLBACK_LINKS (useReleases r).data) = false) := by
  have hz : truthy (links FALLBACK_LINKS (useReleases r).data).windows.zip = true :=
    links_zip_truthy FALLBACK_LINKS _ (by decide)
  have hne : resolvePrimary FALLBACK_LINKS os apple r ≠ "" :=
    primaryHref_ne_empty os apple _ hz
  have hs : safeHref FALLBACK_LINKS os apple (links FALLBACK_LINKS (useReleases r).data) =
      resolvePrimary FALLBACK_LINKS os apple r :=
    safeHref_eq_primaryHref FALLBACK_LINKS os apple _ hne
  have hd : disabled FALLBACK_LINKS os apple (links FALLBACK_LINKS (useReleases r).data) = true ↔
      resolvePrimary FALLBACK_LINKS os apple r = "#" := by
    simp [disabled, hs]
  refine ⟨hz, hne, hs, hd, ?_⟩
  rintro ⟨h1, h2, h3, h4⟩
  rw [Bool.eq_false_iff]
  intro hdis
  have hp := hd.1 hdis
  have hzip : (links FALLBACK_LINKS (useReleases r).data).windows.zip ≠ some "#" := by
    intro hc
    rw [links_windows_zip] at hc
    rcases jsOr_eq_some _ _ _ hc with h | h
    · exact h1 h
    · exact absurd h (by decide)
  have hh : ("#" : String) ≠ "" := by decide
  unfold resolvePrimary at hp
  cases os with
  | windows =>
    have := primaryHref_windows_of_zip apple _ hz
    rw [hp] at this
    exact hzip this.symm
  | mac =>
    have h5 := jsOrStr_empty_eq _ _ hh hp
    rcases jsOr_eq_some _ _ _ h5 with h | h
    · cases apple
      · simp only [Bool.false_eq_true, if_false] at h
        rw [links_mac_x64] at h
        exact h3 h
      · simp only [if_true] at h
        rw [links_mac_arm64] at h
        exact h2 h
    · exact hzip h
  | linux =>
    have h5 := jsOrStr_empty_eq _ _ hh hp
    rcases jsOr_eq_some _ _ _ h5 with h | h
    · rw [links_linux_appImage] at h
      exact h4 h
    · exact hzip h
  | other =>
    exact hzip (jsOrStr_empty_eq _ _ hh hp)

/-- Witness for C10 (amended): on windows after a failed fetch no remote slot
is `"#"`, and `disabled` is false. -/
theorem compiled_fallback_invariant_witness :
    disabled FALLBACK_LINKS .windows false
      (links FALLBACK_LINKS (useReleases (.failed "timeout")).data) = false :=
  (compiled_fallback_invariant .windows false (.failed "timeout")).2.2.2.2
    ⟨by decide, by decide, by decide, by decide⟩

end Benkyoo

namespace Benkyoo

/-! ## Platform detection -/

theorem includesChars_iff (pat s : List Char) :
    includesChars pat s = true ↔ pat <:+: s := by
  induction s with
  | nil => simp [includesChars, List.isEmpty_iff]
  | cons c cs ih =>
    rw [includesChars, Bool.or_eq_true, ih, List.infix_cons_iff, List.isPrefixOf_iff_prefix]

theorem includes_iff (s pat : String) : includes s pat = true ↔ Contains s pat :=
  includesChars_iff pat.toList s.toList

/-- C6: `detectOS` returns `windows` exactly on the windows signal, `mac`
exactly when the windows signal is absent and the mac-family signal present,
`linux` exactly when both are absent and the linux signal present, and `other`
exactly when no signal is present, the signals being searched in the
lower-cased platform and user-agent strings; so the windows check wins over
the others.  For given strings `p`, `u` the searched strings are their
lower-casings, and absent or empty signals give `other`. -/
theorem detectOS_precedence (nav : Navigator) :
    (detectOS nav = .windows ↔ windowsSignal (detectPlat nav) (detectUa nav)) ∧
    (detectOS nav = .mac ↔
      ¬ windowsSignal (detectPlat nav) (detectUa nav) ∧
        macSignal (detectPlat nav) (detectUa nav)) ∧
    (detectOS nav = .linux ↔
      ¬ windowsSignal (detectPlat nav) (detectUa nav) ∧
        ¬ macSignal (detectPlat nav) (detectUa nav) ∧
        linuxSignal (detectPlat nav) (detectUa nav)) ∧
    (detectOS nav = .other ↔
      ¬ windowsSignal (detectPlat nav) (detectUa nav) ∧
        ¬ macSignal (detectPlat nav) (detectUa nav) ∧
        ¬ linuxSignal (detectPlat nav) (detectUa nav)) ∧
    (∀ (p u : String) (n : Option Nat),
      detectPlat ⟨none, some p, some u, n⟩ = toLowerCase p ∧
        detectPlat ⟨some p, none, some u, n⟩ = toLowerCase p ∧
        detectUa ⟨none, some p, some u, n⟩ = toLowerCase u) ∧
    (∀ n : Option Nat,
      detectOS ⟨none, none, none, n⟩ = .other ∧
        detectOS ⟨some "", some "", some "", n⟩ = .other) := by
  have hw : (includes (detectPlat nav) "win" || includes (detectUa nav) "windows") = true ↔
      windowsSignal (detectPlat nav) (detectUa nav) := by
    simp [windowsSignal, includes_iff]
  have hm : (includes (detectPlat nav) "mac" || includes (detectUa nav) "mac os" ||
      includes (detectUa nav) "macintosh") = true ↔
      macSignal (detectPlat nav) (detectUa nav) := by
    simp [macSignal, includes_iff, or_assoc]
  have hl : (includes (detectPlat nav) "linux" || includes (detectUa nav) "linux") = true ↔
      linuxSignal (detectPlat nav) (detectUa nav) := by
    simp [linuxSignal, includes_iff]
  refine ⟨?_, ?_, ?_, ?_, ?_, ?_⟩
  · rw [← hw]
    unfold detectOS
    simp only []
    split_ifs <;> simp_all
  · rw [← hw, ← hm]
    unfold detectOS
    simp only []
    split_ifs <;> simp_all
  · rw [← hw, ← hm, ← hl]
    unfold detectOS
    simp only []
    split_ifs <;> simp_all
  · rw [← hw, ← hm, ← hl]
    unfold detectOS
    simp only []
    split_ifs <;> simp_all
  · intro p u n
    refine ⟨?_, ?_, ?_⟩
    · by_cases h : p = "" <;> simp [detectPlat, jsOr, truthy, jsOrStr, h]
    · by_cases h : p = "" <;> simp [detectPlat, jsOr, truthy, jsOrStr, h]
    · by_cases h : u = "" <;> simp [detectUa, jsOrStr, h]
  · intro n
    exact ⟨rfl, rfl⟩

/-- C7 (as stated, refuted): for an iPhone, whose user agent indicates the mac
family through `like Mac OS X` and which reports five touch points, `detectOS`
returns `mac` and the hint of the claim is true, while `isAppleSilicon` is
false. -/
theorem isAppleSilicon_mac_family_counterexample :
    detectOS iphoneNav = .mac ∧
    macFamilyUa (jsOrStr iphoneNav.userAgent "") = true ∧
    iphoneNav.maxTouchPoints = some 5 ∧
    specAppleSilicon iphoneNav = true ∧
    isAppleSilicon iphoneNav = false := by
  decide

/-- C7 (amended): `isAppleSilicon` is true exactly when the user agent, with
ASCII letters lower-cased, contains `arm64`, or the user agent contains the
marker `Macintosh` written exactly so (case-sensitive) and the touch-point
count is non-zero; an absent user agent counts as the empty string and an
absent count as zero, so with both absent the result is false. -/
theorem isAppleSilicon_iff (nav : Navigator) :
    (isAppleSilicon nav = true ↔
      Contains (toLowerCase (jsOrStr nav.userAgent "")) "arm64" ∨
        (Contains (jsOrStr nav.userAgent "") "Macintosh" ∧ nav.maxTouchPoints.getD 0 ≠ 0)) ∧
    (∀ uad plat : Option String, isAppleSilicon ⟨uad, plat, none, none⟩ = false) := by
  constructor
  · simp [isAppleSilicon, includes_iff, Nat.pos_iff_ne_zero]
  · intro uad plat
    rfl

end Benkyoo
